import Mathlib

/-!
Verification of the PyType static-analysis core (`pytype/analyzer.py`,
`pytype/infer.py`, `pytype/checker.py`) against its specification.

The Python AST fragment that the analysis inspects is embedded as a mutual
inductive family (`Expr`, `Stmt`, ...).  The embedding covers exactly the
syntactic shapes the three modules pattern-match on (constants, names,
container literals, attribute access, subscripts, calls, binary and unary
operations; function/class definitions, `if`, `return`, plain and annotated
assignments, expression statements and `pass`).  Python's `ast.walk` is a
queue-based breadth-first traversal; it is embedded as the concatenation of
the depth levels of the tree (`walkModule`, `walkStmtSub`), which yields the
nodes in the same order: all nodes of depth d, left to right, before any node
of depth d + 1.  Python dicts keyed by strings are embedded as
insertion-ordered association lists where inserting an existing key replaces
its value in place (`dictInsert`) and lookup finds the unique binding
(`dictGet`).
-/

namespace PyType

/-- A Python constant as stored in an `ast.Constant` node.  `pfloat` carries
the textual rendering of the float, which is all the analysis ever consumes
(floats only flow into `str(node.value)`). -/
inductive PyConst where
  | pstr (s : String)
  | pbool (b : Bool)
  | pint (n : Int)
  | pfloat (txt : String)
  | pnone
  deriving DecidableEq, Repr

/-- Python `isinstance(value, str)`. -/
def PyConst.isStrInst : PyConst → Bool
  | .pstr _ => true
  | _ => false

/-- Python `isinstance(value, bool)`. -/
def PyConst.isBoolInst : PyConst → Bool
  | .pbool _ => true
  | _ => false

/-- Python `isinstance(value, int)`: true for `bool` values as well, because
`bool` is a subclass of `int` in Python. -/
def PyConst.isIntInst : PyConst → Bool
  | .pbool _ => true
  | .pint _ => true
  | _ => false

/-- Python `isinstance(value, float)`. -/
def PyConst.isFloatInst : PyConst → Bool
  | .pfloat _ => true
  | _ => false

/-- Python `value is None`. -/
def PyConst.isNoneVal : PyConst → Bool
  | .pnone => true
  | _ => false

/-- Python `str(value)` for the embedded constants. -/
def PyConst.pyStr : PyConst → String
  | .pstr s => s
  | .pbool true => "True"
  | .pbool false => "False"
  | .pint n => toString n
  | .pfloat txt => txt
  | .pnone => "None"

/-- Python `type(value).__name__` for the embedded constants. -/
def PyConst.pyTypeName : PyConst → String
  | .pstr _ => "str"
  | .pbool _ => "bool"
  | .pint _ => "int"
  | .pfloat _ => "float"
  | .pnone => "NoneType"

/-- `ast` binary operators. -/
inductive Operator where
  | add | sub | mult | div | mod | pow | matMult
  | lshift | rshift | bitOr | bitXor | bitAnd | floorDiv
  deriving DecidableEq, Repr

/-- `ast` unary operators. -/
inductive UnaryOperator where
  | uadd | usub | notOp | invert
  deriving DecidableEq, Repr

mutual

/-- The expression fragment of the Python AST that the analysis inspects.
`call` carries its source line because `_check_function_call` reads
`node.lineno`. -/
inductive Expr where
  | name (id : String)
  | const (value : PyConst)
  | attrAccess (value : Expr) (attr : String)
  | subscript (value : Expr) (slice : Expr)
  | listLit (elts : ExprList)
  | dictLit (keys : ExprList) (values : ExprList)
  | tupleLit (elts : ExprList)
  | setLit (elts : ExprList)
  | call (func : Expr) (args : ExprList) (lineno : Nat)
  | binOp (left : Expr) (op : Operator) (right : Expr)
  | unaryOp (op : UnaryOperator) (operand : Expr)

/-- A list of expressions (spelled out so the family stays a plain mutual
inductive and recursion over it stays structural). -/
inductive ExprList where
  | nil
  | cons (head : Expr) (tail : ExprList)

/-- An optional expression (`Optional[ast.expr]` fields). -/
inductive OptExpr where
  | none
  | some (e : Expr)

/-- An `ast.arg`: parameter name plus optional annotation expression. -/
inductive Arg where
  | mk (arg : String) (annot : OptExpr)

/-- The statement fragment of the Python AST that the analysis inspects.
`functionDef` carries its source line because signatures and
missing-annotation sites record `node.lineno`. -/
inductive Stmt where
  | functionDef (name : String) (args : ArgList) (body : StmtList)
      (returns : OptExpr) (lineno : Nat)
  | classDef (name : String) (bases : ExprList) (body : StmtList)
  | ifStmt (test : Expr) (body : StmtList) (orelse : StmtList)
  | ret (value : OptExpr)
  | assign (targets : ExprList) (value : Expr)
  | annAssign (target : Expr) (annot : Expr) (value : OptExpr)
  | exprStmt (value : Expr)
  | passStmt

/-- A list of statements. -/
inductive StmtList where
  | nil
  | cons (head : Stmt) (tail : StmtList)

/-- A list of `ast.arg` nodes. -/
inductive ArgList where
  | nil
  | cons (head : Arg) (tail : ArgList)

end

/-- Parameter names of an argument list (`[arg.arg for arg in func.args.args]`). -/
def ArgList.names : ArgList → List String
  | .nil => []
  | .cons (.mk a _) rest => a :: ArgList.names rest

/-- Length of an expression list (`len(node.args)`). -/
def ExprList.length : ExprList → Nat
  | .nil => 0
  | .cons _ rest => 1 + ExprList.length rest

/-- Convert an embedded expression list to a Lean list. -/
def ExprList.toList : ExprList → List Expr
  | .nil => []
  | .cons e rest => e :: ExprList.toList rest

/-- A node yielded by `ast.walk`: a statement, an expression, the
`ast.arguments` container of a function, or an `ast.arg`.  Operator nodes,
which `ast.walk` also yields, are omitted: they have no children and match
none of the `isinstance` tests of the analysis. -/
inductive Node where
  | stmt (s : Stmt)
  | expr (e : Expr)
  | argumentsNode (args : ArgList)
  | argNode (a : Arg)

/-- Pointwise concatenation of two per-depth-level node lists; past the end of
the shorter one the longer one's levels are kept. -/
def mergeLevels : List (List Node) → List (List Node) → List (List Node)
  | [], ys => ys
  | x :: xs, [] => x :: xs
  | x :: xs, y :: ys => (x ++ y) :: mergeLevels xs ys

mutual

/-- Nodes of the subtree rooted at an expression, grouped by depth, children
in `ast.iter_child_nodes` field order. -/
def levelsExpr : Expr → List (List Node)
  | .name id => [[Node.expr (.name id)]]
  | .const v => [[Node.expr (.const v)]]
  | .attrAccess v a => [Node.expr (.attrAccess v a)] :: levelsExpr v
  | .subscript v s =>
      [Node.expr (.subscript v s)] :: mergeLevels (levelsExpr v) (levelsExpr s)
  | .listLit es => [Node.expr (.listLit es)] :: levelsExprList es
  | .dictLit ks vs =>
      [Node.expr (.dictLit ks vs)] :: mergeLevels (levelsExprList ks) (levelsExprList vs)
  | .tupleLit es => [Node.expr (.tupleLit es)] :: levelsExprList es
  | .setLit es => [Node.expr (.setLit es)] :: levelsExprList es
  | .call f args ln =>
      [Node.expr (.call f args ln)] :: mergeLevels (levelsExpr f) (levelsExprList args)
  | .binOp l op r =>
      [Node.expr (.binOp l op r)] :: mergeLevels (levelsExpr l) (levelsExpr r)
  | .unaryOp op e => [Node.expr (.unaryOp op e)] :: levelsExpr e

/-- Depth levels of a list of sibling expressions, merged level by level. -/
def levelsExprList : ExprList → List (List Node)
  | .nil => []
  | .cons e rest => mergeLevels (levelsExpr e) (levelsExprList rest)

/-- Depth levels of an optional expression. -/
def levelsOptExpr : OptExpr → List (List Node)
  | .none => []
  | .some e => levelsExpr e

/-- Depth levels of one `ast.arg` node (the annotation is its child). -/
def levelsArg : Arg → List (List Node)
  | .mk a ann => [Node.argNode (.mk a ann)] :: levelsOptExpr ann

/-- Depth levels of a list of `ast.arg` siblings. -/
def levelsArgList : ArgList → List (List Node)
  | .nil => []
  | .cons a rest => mergeLevels (levelsArg a) (levelsArgList rest)

/-- Nodes of the subtree rooted at a statement, grouped by depth.  A
`functionDef`'s direct children are its `ast.arguments` container, its body
statements and its return annotation, in that field order. -/
def levelsStmt : Stmt → List (List Node)
  | .functionDef n args body returns ln =>
      [Node.stmt (.functionDef n args body returns ln)] ::
        mergeLevels ([Node.argumentsNode args] :: levelsArgList args)
          (mergeLevels (levelsStmts body) (levelsOptExpr returns))
  | .classDef n bases body =>
      [Node.stmt (.classDef n bases body)] ::
        mergeLevels (levelsExprList bases) (levelsStmts body)
  | .ifStmt t body orelse =>
      [Node.stmt (.ifStmt t body orelse)] ::
        mergeLevels (levelsExpr t) (mergeLevels (levelsStmts body) (levelsStmts orelse))
  | .ret v => [Node.stmt (.ret v)] :: levelsOptExpr v
  | .assign ts v =>
      [Node.stmt (.assign ts v)] :: mergeLevels (levelsExprList ts) (levelsExpr v)
  | .annAssign t ann v =>
      [Node.stmt (.annAssign t ann v)] ::
        mergeLevels (levelsExpr t) (mergeLevels (levelsExpr ann) (levelsOptExpr v))
  | .exprStmt e => [Node.stmt (.exprStmt e)] :: levelsExpr e
  | .passStmt => [[Node.stmt .passStmt]]

/-- Depth levels of a list of sibling statements. -/
def levelsStmts : StmtList → List (List Node)
  | .nil => []
  | .cons s rest => mergeLevels (levelsStmt s) (levelsStmts rest)

end

/-- `ast.walk(func)` for a single statement: the statement itself first, then
its descendants in breadth-first order. -/
def walkStmtSub (s : Stmt) : List Node := (levelsStmt s).flatten

/-- `ast.walk(tree)` for a module body.  The `ast.Module` node itself, which
`ast.walk` yields first, is omitted: it matches none of the `isinstance`
tests of the analysis. -/
def walkModule (body : StmtList) : List Node := (levelsStmts body).flatten

/-- Lookup in an embedded Python dict (`d.get(k)` / `d[k]`). -/
def dictGet {α : Type} (m : List (String × α)) (k : String) : Option α :=
  (m.find? (fun p => p.1 == k)).map (fun p => p.2)

/-- Assignment `d[k] = v` on an embedded Python dict: replaces the value of an
existing key in place, otherwise appends the new binding. -/
def dictInsert {α : Type} (m : List (String × α)) (k : String) (v : α) :
    List (String × α) :=
  if m.any (fun p => p.1 == k) then
    m.map (fun p => if p.1 == k then (k, v) else p)
  else
    m ++ [(k, v)]

/-- Python truthiness of an `Optional[str]`, applied to the branch that a
source-level `if opt:` guards: `none` and the empty string are falsy. -/
def ifTruthy {α : Type} (opt : Option String) (f : String → α) (d : α) : α :=
  match opt with
  | Option.some s => if s = "" then d else f s
  | Option.none => d

/-- Python `f"{x}"` for an `Optional[str]`: `None` renders as `"None"`. -/
def pyFStr : Option String → String
  | Option.none => "None"
  | Option.some s => s

/-- The constructor name of an expression node, used to model Python's
generic `str(node)` rendering of an AST object. -/
def exprKind : Expr → String
  | .name _ => "Name"
  | .const _ => "Constant"
  | .attrAccess _ _ => "Attribute"
  | .subscript _ _ => "Subscript"
  | .listLit _ => "List"
  | .dictLit _ _ => "Dict"
  | .tupleLit _ => "Tuple"
  | .setLit _ => "Set"
  | .call _ _ _ => "Call"
  | .binOp _ _ _ => "BinOp"
  | .unaryOp _ _ => "UnaryOp"

/-- Python `str(node)` on an AST object (`<ast.Name object at 0x...>`).  The
real rendering includes the object address; it is modelled as a deterministic
function of the node, which is faithful whenever the two call sites being
compared receive the same node object, as they do in `_get_type_name`. -/
def strNode (e : Expr) : String := "<ast." ++ exprKind e ++ " object>"

/-! ## `pytype/infer.py` — `TypeInferrer` -/

/-- An inferred signature dict: the optional `'args'` entry (present only
when non-empty) and the optional `'returns'` entry. -/
structure Signature where
  args : Option (List (String × String))
  returns : Option String
  deriving DecidableEq, Repr

/-- The three mutable maps of `TypeInferrer` (`_type_map` is never written by
the source, but it is part of the state and of `infer_types`' result). -/
structure InferState where
  typeMap : List (String × String)
  functionSignatures : List (String × Signature)
  variableTypes : List (String × String)
  deriving DecidableEq, Repr

/-- The state after `infer_types` clears all three maps. -/
def emptyInferState : InferState := ⟨[], [], []⟩

/-- The recursion of `TypeInferrer._get_type_name` on a node that is not
`None`: a bare identifier maps to itself, an attribute access to
`<base>.<attr>` recursively, a subscript to `<base>[<slice>]` recursively, a
literal constant to `str(value)`, anything else to the generic `str(node)`
rendering.  (The source's recursive calls always receive a non-`None` child
node, so the recursion is stated on the expression itself.) -/
def getTypeNameE : Expr → Option String
  | .name id => Option.some id
  | .attrAccess v a =>
      Option.some (pyFStr (getTypeNameE v) ++ "." ++ a)
  | .subscript v s =>
      Option.some (pyFStr (getTypeNameE v) ++ "[" ++
        pyFStr (getTypeNameE s) ++ "]")
  | .const c => Option.some c.pyStr
  | e => Option.some (strNode e)

/-- `TypeInferrer._get_type_name`, including its `None` guard. -/
def getTypeName : OptExpr → Option String
  | .none => Option.none
  | .some e => getTypeNameE e

/-- `TypeInferrer._get_constant_type`: the `isinstance` chain tests `str`,
`bool`, `int`, `float`, then `value is None`; the fallback returns
`type(value).__name__`. -/
def getConstantType (value : PyConst) : String :=
  if value.isStrInst then "str"
  else if value.isBoolInst then "bool"
  else if value.isIntInst then "int"
  else if value.isFloatInst then "float"
  else if value.isNoneVal then "None"
  else value.pyTypeName

/-- `TypeInferrer._infer_type_from_method`'s dict literal, as the sequence of
key-value entries in source order.  The keys `remove`, `pop` and `clear`
occur twice (once under `List`, once under `Set`). -/
def methodTypeEntries : List (String × String) :=
  [("append", "List"), ("extend", "List"), ("insert", "List"),
   ("remove", "List"), ("pop", "List"), ("clear", "List"),
   ("index", "List"), ("count", "List"), ("sort", "List"),
   ("reverse", "List"), ("copy", "List"),
   ("update", "Dict"), ("get", "Dict"), ("setdefault", "Dict"),
   ("popitem", "Dict"), ("keys", "Dict"), ("values", "Dict"),
   ("items", "Dict"),
   ("add", "Set"), ("remove", "Set"), ("discard", "Set"), ("pop", "Set"),
   ("clear", "Set"), ("union", "Set"), ("intersection", "Set"),
   ("difference", "Set"), ("symmetric_difference", "Set"),
   ("strip", "str"), ("split", "str"), ("join", "str"), ("replace", "str"),
   ("upper", "str"), ("lower", "str"), ("capitalize", "str"),
   ("title", "str")]

/-- The `method_type_map` dict: a Python dict literal is built by inserting
its entries in source order, so a later duplicate key overwrites an earlier
one. -/
def methodTypeMap : List (String × String) :=
  methodTypeEntries.foldl (fun m p => dictInsert m p.1 p.2) []

/-- `TypeInferrer._infer_type_from_method`: `method_type_map.get(name)`. -/
def inferTypeFromMethod (methodName : String) : Option String :=
  dictGet methodTypeMap methodName

/-- `TypeInferrer._infer_type_from_operation`. -/
def inferTypeFromOperation : Operator → Option String
  | .add | .sub | .mult | .div | .mod | .pow => Option.some "int"
  | .matMult => Option.some "Any"
  | .lshift | .rshift | .bitOr | .bitXor | .bitAnd => Option.some "int"
  | .floorDiv => Option.none

/-- `TypeInferrer._infer_call_type`: for a bare-name callee, the `'returns'`
entry of the known signature, else `None`. -/
def inferCallType (st : InferState) (funcExpr : Expr) : Option String :=
  match funcExpr with
  | .name funcName =>
      match dictGet st.functionSignatures funcName with
      | Option.some sig => sig.returns
      | Option.none => Option.none
  | _ => Option.none

/-- The branch body of `TypeInferrer._infer_binop_type` once the two operand
types have been computed. -/
def binopTypeRule (op : Operator) (leftType rightType : Option String) :
    Option String :=
  if op = .add ∨ op = .sub ∨ op = .mult ∨ op = .div then
    if leftType = Option.some "str" ∧ rightType = Option.some "str" then
      Option.some "str"
    else if (leftType = Option.some "int" ∨ leftType = Option.some "float") ∧
            (rightType = Option.some "int" ∨ rightType = Option.some "float") then
      if leftType = Option.some "float" ∨ rightType = Option.some "float" then
        Option.some "float"
      else Option.some "int"
    else leftType
  else leftType

/-- The branch body of `TypeInferrer._infer_unaryop_type` once the operand
type has been computed: both the narrowed branch and the fall-through return
the operand's type, mirroring the source's redundant structure. -/
def unaryopTypeRule (op : UnaryOperator) (operandType : Option String) :
    Option String :=
  if op = .uadd ∨ op = .usub then
    if operandType = Option.some "int" ∨ operandType = Option.some "float" then
      operandType
    else operandType
  else operandType

/-- `TypeInferrer._infer_expression_type`: the recursive, state-dependent
expression-type rule.  A `Subscript` matches none of the `isinstance` tests
and falls through to the final `return None`.  The `BinOp` and `UnaryOp`
branches are the bodies of `_infer_binop_type` and `_infer_unaryop_type`
(restated below as `inferBinopType` and `inferUnaryopType`), inlined here so
the recursion is structural on the expression. -/
def inferExpressionType (st : InferState) : Expr → Option String
  | .const v => Option.some (getConstantType v)
  | .name id => dictGet st.variableTypes id
  | .listLit _ => Option.some "List"
  | .dictLit _ _ => Option.some "Dict"
  | .tupleLit _ => Option.some "Tuple"
  | .setLit _ => Option.some "Set"
  | .call f _ _ => inferCallType st f
  | .attrAccess _ _ => Option.none
  | .binOp l op r =>
      binopTypeRule op (inferExpressionType st l) (inferExpressionType st r)
  | .unaryOp op e => unaryopTypeRule op (inferExpressionType st e)
  | .subscript _ _ => Option.none

/-- `TypeInferrer._infer_binop_type`: infer both operand types, then apply
the string/numeric heuristic, defaulting to the left operand's type. -/
def inferBinopType (st : InferState) (l : Expr) (op : Operator) (r : Expr) :
    Option String :=
  binopTypeRule op (inferExpressionType st l) (inferExpressionType st r)

/-- `TypeInferrer._infer_unaryop_type`. -/
def inferUnaryopType (st : InferState) (op : UnaryOperator) (e : Expr) :
    Option String :=
  unaryopTypeRule op (inferExpressionType st e)

/-- The loop body of `TypeInferrer._collect_basic_types` (the seed pass) at
one walked node: record annotated variables and annotated function return
types. -/
def seedStep (st : InferState) (n : Node) : InferState :=
  match n with
  | .stmt (.annAssign (.name id) ann _) =>
      ifTruthy (getTypeName (.some ann))
        (fun typeName =>
          { st with variableTypes := dictInsert st.variableTypes id typeName })
        st
  | .stmt (.functionDef name _ _ (.some r) _) =>
      ifTruthy (getTypeName (.some r))
        (fun returnType =>
          { st with functionSignatures :=
              (dictInsert st.functionSignatures name
                (Signature.mk Option.none (Option.some returnType))) })
        st
  | _ => st

/-- `TypeInferrer._collect_basic_types`: fold the seed step over
`ast.walk(tree)`. -/
def collectBasicTypes (tree : StmtList) (st : InferState) : InferState :=
  (walkModule tree).foldl seedStep st

/-- `TypeInferrer._infer_argument_types`: walk the function body; a method
call `argname.method(...)` on a parameter consults the method table, a binary
operation whose left operand is a parameter consults the operator table; each
match overwrites the parameter's previous entry; an empty dict becomes
`None`. -/
def inferArgumentTypes (f : Stmt) : Option (List (String × String)) :=
  match f with
  | .functionDef n args body returns ln =>
      let argNames := args.names
      let argTypes := (walkStmtSub (.functionDef n args body returns ln)).foldl
        (fun acc nd =>
          match nd with
          | .expr (.call (.attrAccess (.name argName) methodName) _ _) =>
              if argNames.contains argName then
                ifTruthy (inferTypeFromMethod methodName)
                  (fun t => dictInsert acc argName t) acc
              else acc
          | .expr (.binOp (.name argName) op _) =>
              if argNames.contains argName then
                ifTruthy (inferTypeFromOperation op)
                  (fun t => dictInsert acc argName t) acc
              else acc
          | _ => acc) []
      if argTypes.isEmpty then Option.none else Option.some argTypes
  | _ => Option.none

/-- The `return_types` list collected by `TypeInferrer._infer_return_type`:
the truthy inferred type of every `return <expr>` in `ast.walk(func)` order. -/
def collectReturnTypes (st : InferState) (f : Stmt) : List String :=
  (walkStmtSub f).foldl
    (fun acc nd =>
      match nd with
      | .stmt (.ret (.some v)) =>
          ifTruthy (inferExpressionType st v) (fun rt => acc ++ [rt]) acc
      | _ => acc) []

/-- Python `set(...)` on a list of strings, in a deterministic member order
(`set` iteration order is unspecified; nothing proved below depends on the
order, only on the member set and on its size). -/
def pySet (l : List String) : List String := l.dedup

/-- `TypeInferrer._infer_return_type`: the single collected type, a
`Union[...]` over the de-duplicated set when they diverge, or `None` when
nothing was collected. -/
def inferReturnType (st : InferState) (f : Stmt) : Option String :=
  match collectReturnTypes st f with
  | [] => Option.none
  | t :: rest =>
      if (pySet (t :: rest)).length = 1 then Option.some t
      else
        Option.some ("Union[" ++ String.intercalate ", " (pySet (t :: rest)) ++ "]")

/-- `TypeInferrer._infer_function_signature`: assemble the `'args'` and
`'returns'` entries; an empty signature dict becomes `None`. -/
def inferFunctionSignature (st : InferState) (f : Stmt) : Option Signature :=
  let argTypes := inferArgumentTypes f
  let returnType := ifTruthy (inferReturnType st f) Option.some Option.none
  match argTypes, returnType with
  | Option.none, Option.none => Option.none
  | _, _ => Option.some ⟨argTypes, returnType⟩

/-- The loop body of `TypeInferrer._infer_function_signatures` (the signature
pass) at one walked node: a non-`None` inferred signature is stored under the
function's name, replacing any existing entry. -/
def sigStep (st : InferState) (n : Node) : InferState :=
  match n with
  | .stmt (.functionDef name args body returns ln) =>
      match inferFunctionSignature st (.functionDef name args body returns ln) with
      | Option.some sig =>
          { st with functionSignatures :=
              dictInsert st.functionSignatures name sig }
      | Option.none => st
  | _ => st

/-- `TypeInferrer._infer_function_signatures`: fold the signature step over
`ast.walk(tree)`; later iterations see the state written by earlier ones. -/
def inferFunctionSignaturesPass (tree : StmtList) (st : InferState) : InferState :=
  (walkModule tree).foldl sigStep st

/-- The per-target body of `TypeInferrer._infer_variable_types`: for a `Name`
target, the expression type is inferred in the current state and stored when
truthy. -/
def assignTargetStep (value : Expr) (st : InferState) (target : Expr) : InferState :=
  match target with
  | .name id =>
      ifTruthy (inferExpressionType st value)
        (fun inferredType =>
          { st with variableTypes := dictInsert st.variableTypes id inferredType })
        st
  | _ => st

/-- The loop body of `TypeInferrer._infer_variable_types` (the variable pass)
at one walked node. -/
def varStep (st : InferState) (n : Node) : InferState :=
  match n with
  | .stmt (.assign targets value) =>
      targets.toList.foldl (assignTargetStep value) st
  | _ => st

/-- `TypeInferrer._infer_variable_types`: fold the variable step over
`ast.walk(tree)`. -/
def inferVariableTypesPass (tree : StmtList) (st : InferState) : InferState :=
  (walkModule tree).foldl varStep st

/-- `TypeInferrer.infer_types`: clear the maps, then run the seed pass, the
signature pass and the variable pass in order over the same tree. -/
def inferTypes (tree : StmtList) : InferState :=
  inferVariableTypesPass tree
    (inferFunctionSignaturesPass tree
      (collectBasicTypes tree emptyInferState))

/-! ## `pytype/analyzer.py` — `ASTAnalyzer` and `_ASTWalker` -/

/-- `ASTAnalyzer._get_type_name`'s recursion on a node that is not `None`:
character for character the same rule as `TypeInferrer._get_type_name`,
embedded separately so their equivalence can be stated. -/
def getTypeNameAE : Expr → Option String
  | .name id => Option.some id
  | .attrAccess v a =>
      Option.some (pyFStr (getTypeNameAE v) ++ "." ++ a)
  | .subscript v s =>
      Option.some (pyFStr (getTypeNameAE v) ++ "[" ++
        pyFStr (getTypeNameAE s) ++ "]")
  | .const c => Option.some c.pyStr
  | e => Option.some (strNode e)

/-- `ASTAnalyzer._get_type_name`, including its `None` guard. -/
def getTypeNameA : OptExpr → Option String
  | .none => Option.none
  | .some e => getTypeNameAE e

/-- `ASTAnalyzer._infer_value_type`: the extractor's value-type heuristic.
Its `isinstance` chain tests `str`, `int`, `float`, `bool`, then
`value is None` — note `int` before `bool`, unlike
`TypeInferrer._get_constant_type`. -/
def inferValueType : Expr → Option String
  | .const v =>
      if v.isStrInst then Option.some "str"
      else if v.isIntInst then Option.some "int"
      else if v.isFloatInst then Option.some "float"
      else if v.isBoolInst then Option.some "bool"
      else if v.isNoneVal then Option.some "None"
      else Option.none
  | .listLit _ => Option.some "List"
  | .dictLit _ _ => Option.some "Dict"
  | .tupleLit _ => Option.some "Tuple"
  | .setLit _ => Option.some "Set"
  | .call f _ _ => getTypeNameA (.some f)
  | _ => Option.none

/-- One argument record of `ASTAnalyzer._extract_function_args`. -/
structure ArgInfo where
  name : String
  hasAnnot : Bool
  annotTxt : Option String
  deriving DecidableEq, Repr

/-- One record of `ASTAnalyzer.get_function_signatures`. -/
structure FuncSig where
  name : String
  lineno : Nat
  args : List ArgInfo
  returns : Option String
  hasReturnAnnot : Bool
  deriving DecidableEq, Repr

/-- `ASTAnalyzer._extract_function_args`. -/
def extractFunctionArgs : ArgList → List ArgInfo
  | .nil => []
  | .cons (.mk a ann) rest =>
      { name := a,
        hasAnnot := (match ann with | .some _ => true | .none => false),
        annotTxt := (match ann with
          | .some e => getTypeNameA (.some e)
          | .none => Option.none) } :: extractFunctionArgs rest

/-- The signature record built by `ASTAnalyzer.get_function_signatures` for
one `FunctionDef` node (its `'returns'` entry is
`_extract_return_type`). -/
def funcSigOfNode : Node → Option FuncSig
  | .stmt (.functionDef name args _ returns lineno) =>
      Option.some
        { name := name,
          lineno := lineno,
          args := extractFunctionArgs args,
          returns := (match returns with
            | .some r => getTypeNameA (.some r)
            | .none => Option.none),
          hasReturnAnnot := (match returns with
            | .some _ => true
            | .none => false) }
  | _ => Option.none

/-- `ASTAnalyzer.get_function_signatures`: one record per `FunctionDef` in
`ast.walk(tree)` order. -/
def getFunctionSignatures (tree : StmtList) : List FuncSig :=
  (walkModule tree).filterMap funcSigOfNode

mutual

/-- `_ASTWalker.visit_FunctionDef` and the generic visit, restricted to the
`missing_annotations` list: sites are appended only under strict mode — the
return-annotation check first, then one check per argument — before the
walker recurses into the body.  Functions cannot occur inside the embedded
expressions, so expression children contribute nothing and are skipped. -/
def stmtMissingAnnots (strict : Bool) : Stmt → List (String × Nat)
  | .functionDef name args body returns lineno =>
      (match returns with
        | .none =>
            if strict then [("function '" ++ name ++ "'", lineno)] else []
        | .some _ => []) ++
      argsMissingAnnots strict name lineno args ++
      stmtsMissingAnnots strict body
  | .classDef _ _ body => stmtsMissingAnnots strict body
  | .ifStmt _ body orelse =>
      stmtsMissingAnnots strict body ++ stmtsMissingAnnots strict orelse
  | _ => []

/-- The per-argument loop of `_ASTWalker.visit_FunctionDef`. -/
def argsMissingAnnots (strict : Bool) (funcName : String) (lineno : Nat) :
    ArgList → List (String × Nat)
  | .nil => []
  | .cons (.mk a ann) rest =>
      (match ann with
        | .none =>
            if strict then
              [("parameter '" ++ a ++ "' in function '" ++ funcName ++ "'", lineno)]
            else []
        | .some _ => []) ++
      argsMissingAnnots strict funcName lineno rest

/-- The walker's traversal of a statement list. -/
def stmtsMissingAnnots (strict : Bool) : StmtList → List (String × Nat)
  | .nil => []
  | .cons s rest => stmtMissingAnnots strict s ++ stmtsMissingAnnots strict rest

end

/-! ## `pytype/checker.py` — `TypeChecker` -/

/-- The configuration options consumed by the checker core (`format`,
`exclude`, `ignore_errors` and the rest of `Config` are read only by the
batch driver outside the core). -/
structure Config where
  strict : Bool
  infer : Bool
  fix : Bool
  deriving DecidableEq, Repr

/-- One entry of the checker's `errors` / `warnings` lists: kind tag,
message, source line and file identifier. -/
structure Issue where
  itype : String
  message : String
  line : Nat
  file : String
  deriving DecidableEq, Repr

/-- The error half of `TypeChecker._check_function_signatures`: one
`missing_return_type` error per signature lacking a return annotation, in
strict mode only. -/
def sigErrors (cfg : Config) (file : String) (sigs : List FuncSig) : List Issue :=
  sigs.filterMap (fun sig =>
    if cfg.strict && !sig.hasReturnAnnot then
      Option.some
        { itype := "missing_return_type",
          message := "Missing return type annotation for function '" ++
            sig.name ++ "'",
          line := sig.lineno, file := file }
    else Option.none)

/-- The warning half of `TypeChecker._check_function_signatures`: one
`missing_arg_type` warning per unannotated argument, in strict mode only
(a warning even under strict mode). -/
def sigWarnings (cfg : Config) (file : String) (sigs : List FuncSig) : List Issue :=
  (sigs.map (fun sig =>
    sig.args.filterMap (fun arg =>
      if cfg.strict && !arg.hasAnnot then
        Option.some
          { itype := "missing_arg_type",
            message := "Missing type annotation for parameter '" ++ arg.name ++
              "' in function '" ++ sig.name ++ "'",
            line := sig.lineno, file := file }
      else Option.none))).flatten

/-- An issue of kind `missing_annotation` for one extracted site. -/
def missingAnnotIssue (file : String) (site : String × Nat) : Issue :=
  { itype := "missing_annotation",
    message := "Missing type annotation for " ++ site.1,
    line := site.2, file := file }

/-- The error half of `TypeChecker._check_missing_annotations`: the
extractor's site list becomes errors when strict mode is active. -/
def missingAnnotErrors (cfg : Config) (file : String)
    (missing : List (String × Nat)) : List Issue :=
  if cfg.strict then missing.map (missingAnnotIssue file) else []

/-- The warning half of `TypeChecker._check_missing_annotations`: the same
site list becomes warnings when strict mode is off. -/
def missingAnnotWarnings (cfg : Config) (file : String)
    (missing : List (String × Nat)) : List Issue :=
  if cfg.strict then [] else missing.map (missingAnnotIssue file)

/-- `TypeChecker._check_function_call`: inference-gated; for a bare-name
callee with an inferred signature that records an argument list, an
`argument_count_mismatch` error when the call's positional-argument count
differs from that list's length.  (The source also tests that the signature
dict itself is truthy; an inserted signature is never the empty dict, and an
empty dict has no `'args'` entry, so the test is subsumed by the `'args'`
match.) -/
def checkFunctionCall (cfg : Config) (sigs : List (String × Signature))
    (file : String) (funcExpr : Expr) (callArgs : ExprList) (lineno : Nat) :
    List Issue :=
  match funcExpr with
  | .name funcName =>
      if cfg.infer then
        match dictGet sigs funcName with
        | Option.some sig =>
            match sig.args with
            | Option.some expectedArgs =>
                if callArgs.length ≠ expectedArgs.length then
                  [{ itype := "argument_count_mismatch",
                     message := "Function '" ++ funcName ++ "' expects " ++
                       toString expectedArgs.length ++ " arguments, got " ++
                       toString callArgs.length,
                     line := lineno, file := file }]
                else []
            | Option.none => []
        | Option.none => []
      else []
  | _ => []

/-- `TypeChecker._check_type_mismatches`: walk the tree and check every
`Call` node (`_check_assignment`, invoked on `Assign` nodes, is an explicit
no-op placeholder and contributes nothing). -/
def typeMismatchErrors (cfg : Config) (sigs : List (String × Signature))
    (file : String) (tree : StmtList) : List Issue :=
  ((walkModule tree).map (fun nd =>
    match nd with
    | .expr (.call f args ln) => checkFunctionCall cfg sigs file f args ln
    | _ => [])).flatten

/-- Python `repr` of one string-to-string binding. -/
def reprStrPair (p : String × String) : String :=
  "'" ++ p.1 ++ "': '" ++ p.2 ++ "'"

/-- Python `str` of a string-to-string dict. -/
def reprStrDict (d : List (String × String)) : String :=
  "\x7b" ++ String.intercalate ", " (d.map reprStrPair) ++ "\x7d"

/-- Python `str` of a signature dict (`'args'` was inserted before
`'returns'` whenever both are present). -/
def reprSignature (sig : Signature) : String :=
  "\x7b" ++ String.intercalate ", "
    ((match sig.args with
      | Option.some d => ["'args': " ++ reprStrDict d]
      | Option.none => []) ++
     (match sig.returns with
      | Option.some r => ["'returns': '" ++ r ++ "'"]
      | Option.none => [])) ++ "\x7d"

/-- `TypeChecker._report_inferred_types`: the informational lines handed to
the reporter when inference ran. -/
def inferInfoMessages (file : String) (st : InferState) : List String :=
  (if st.functionSignatures.isEmpty then []
   else
     ("Inferred function signatures in " ++ file ++ ":") ::
       st.functionSignatures.map (fun p => "  " ++ p.1 ++ ": " ++ reprSignature p.2)) ++
  (if st.variableTypes.isEmpty then []
   else
     ("Inferred variable types in " ++ file ++ ":") ::
       st.variableTypes.map (fun p => "  " ++ p.1 ++ ": " ++ p.2))

/-- The outcome of `ASTAnalyzer.parse_file`: a parsed module body, or one of
the two failure prints (`SyntaxError`, any other exception) that return
`None` to the caller. -/
inductive ParseOutcome where
  | parsed (tree : StmtList)
  | syntaxError (err : String)
  | readError (err : String)

/-- The single line `parse_file` writes to stderr on failure. -/
def parseStderr (file : String) : ParseOutcome → List String
  | .parsed _ => []
  | .syntaxError e => ["Syntax error in " ++ file ++ ": " ++ e]
  | .readError e => ["Error parsing " ++ file ++ ": " ++ e]

/-- The observable outcome of one `TypeChecker.check_file` call: its return
value, the `errors` and `warnings` lists it accumulated (forwarded verbatim
to the reporter by `_report_issues`, errors first), the informational
messages, and what the parse step printed to stderr. -/
structure CheckResult where
  retVal : Nat
  errors : List Issue
  warnings : List Issue
  infoMessages : List String
  stderrMessages : List String
  deriving DecidableEq, Repr

/-- `TypeChecker.check_file`.  A failed parse returns 1 immediately with the
cleared (empty) issue lists; otherwise the analysis, optional inference and
the four checking passes run in order, the issues are reported, the optional
auto-fix notice is emitted, and the error count is returned.  (`inferTypes`
is written unconditionally here; when `cfg.infer` is false its result feeds
only into `checkFunctionCall`, which is gated on `cfg.infer` and never reads
it, matching the source where the engine is simply not invoked.) -/
def checkFile (cfg : Config) (file : String) (outcome : ParseOutcome) :
    CheckResult :=
  match outcome with
  | .syntaxError e =>
      { retVal := 1, errors := [], warnings := [], infoMessages := [],
        stderrMessages := parseStderr file (.syntaxError e) }
  | .readError e =>
      { retVal := 1, errors := [], warnings := [], infoMessages := [],
        stderrMessages := parseStderr file (.readError e) }
  | .parsed tree =>
      let missing := stmtsMissingAnnots cfg.strict tree
      let inferred := inferTypes tree
      let inferInfo := if cfg.infer then inferInfoMessages file inferred else []
      let sigs := getFunctionSignatures tree
      let errors := sigErrors cfg file sigs ++
        missingAnnotErrors cfg file missing ++
        typeMismatchErrors cfg inferred.functionSignatures file tree
      let warnings := sigWarnings cfg file sigs ++
        missingAnnotWarnings cfg file missing
      let fixInfo := if cfg.fix then ["Auto-fixing " ++ file ++ " (placeholder)"] else []
      { retVal := errors.length, errors := errors, warnings := warnings,
        infoMessages := inferInfo ++ fixInfo, stderrMessages := [] }

/-! ## Helper lemmas -/

theorem dictGet_dictInsert_self {α : Type} (m : List (String × α)) (k : String)
    (v : α) : dictGet (dictInsert m k v) k = Option.some v := by
  unfold dictGet dictInsert
  split_ifs with h
  · induction m with
    | nil => simp at h
    | cons p rest ih =>
        by_cases hp : p.1 == k
        · simp [List.find?, hp]
        · simp only [List.any_cons, hp, Bool.false_or] at h
          simpa [List.find?, hp] using ih h
  · induction m with
    | nil => simp [List.find?]
    | cons p rest ih =>
        simp only [List.any_cons, Bool.or_eq_true, not_or] at h
        have hp : (p.1 == k) = false := by
          cases hq : p.1 == k
          · rfl
          · exact absurd hq h.1
        simpa [List.find?, hp] using ih (by simpa using h.2)

theorem pySet_replicate (n : Nat) (t : String) :
    pySet (List.replicate (n + 1) t) = [t] := by
  induction n with
  | zero => simp [pySet]
  | succ k ih =>
      rw [pySet, List.replicate_succ, List.dedup_cons_of_mem (by simp)]
      exact ih

theorem pySet_all_eq {t : String} {l : List String} (hne : l ≠ [])
    (h : ∀ u ∈ l, u = t) : pySet l = [t] := by
  have hrep := List.eq_replicate_of_mem h
  obtain ⟨n, hn⟩ : ∃ n, l.length = n + 1 := by
    cases hl : l.length with
    | zero => exact absurd (List.length_eq_zero.mp hl) hne
    | succ k => exact ⟨k, rfl⟩
  rw [hrep, hn, pySet_replicate]

theorem pySet_length_ne_one {a b : String} {l : List String} (ha : a ∈ l)
    (hb : b ∈ l) (hne : a ≠ b) : (pySet l).length ≠ 1 := by
  intro hlen
  obtain ⟨c, hc⟩ := List.length_eq_one.mp hlen
  have ha' : a ∈ pySet l := by simpa [pySet] using List.mem_dedup.mpr ha
  have hb' : b ∈ pySet l := by simpa [pySet] using List.mem_dedup.mpr hb
  rw [hc] at ha' hb'
  simp at ha' hb'
  exact hne (ha'.trans hb'.symm)

theorem checkFunctionCall_itype (cfg : Config) (sigs : List (String × Signature))
    (file : String) (funcExpr : Expr) (callArgs : ExprList) (lineno : Nat) :
    ∀ i ∈ checkFunctionCall cfg sigs file funcExpr callArgs lineno,
      i.itype = "argument_count_mismatch" := by
  intro i hi
  cases funcExpr
  case name fn =>
    by_cases hinf : cfg.infer = true
    · cases hd : dictGet sigs fn with
      | none => simp [checkFunctionCall, hinf, hd] at hi
      | some sig =>
          cases hargs : sig.args with
          | none => simp [checkFunctionCall, hinf, hd, hargs] at hi
          | some expected =>
              by_cases hlen : callArgs.length = expected.length
              · simp [checkFunctionCall, hinf, hd, hargs, hlen] at hi
              · simp [checkFunctionCall, hinf, hd, hargs, hlen] at hi
                rw [hi]
    · simp [checkFunctionCall, hinf] at hi
  all_goals simp [checkFunctionCall] at hi

theorem typeMismatchErrors_itype (cfg : Config) (sigs : List (String × Signature))
    (file : String) (tree : StmtList) :
    ∀ i ∈ typeMismatchErrors cfg sigs file tree,
      i.itype = "argument_count_mismatch" := by
  intro i hi
  unfold typeMismatchErrors at hi
  rw [List.mem_flatten] at hi
  obtain ⟨l, hl, hil⟩ := hi
  rw [List.mem_map] at hl
  obtain ⟨nd, _, hnd⟩ := hl
  subst hnd
  cases nd with
  | expr e =>
      cases e
      case call =>
        exact checkFunctionCall_itype cfg sigs file _ _ _ i hil
      all_goals simp at hil
  | stmt s => simp at hil
  | argumentsNode args => simp at hil
  | argNode a => simp at hil

mutual

theorem stmtMissingAnnots_nonstrict : ∀ s : Stmt, stmtMissingAnnots false s = []
  | .functionDef name args body returns lineno => by
      have h1 := argsMissingAnnots_nonstrict name lineno args
      have h2 := stmtsMissingAnnots_nonstrict body
      cases returns <;> simp [stmtMissingAnnots, h1, h2]
  | .classDef name bases body => by
      have h2 := stmtsMissingAnnots_nonstrict body
      simp [stmtMissingAnnots, h2]
  | .ifStmt t body orelse => by
      have h1 := stmtsMissingAnnots_nonstrict body
      have h2 := stmtsMissingAnnots_nonstrict orelse
      simp [stmtMissingAnnots, h1, h2]
  | .ret v => by simp [stmtMissingAnnots]
  | .assign ts v => by simp [stmtMissingAnnots]
  | .annAssign t a v => by simp [stmtMissingAnnots]
  | .exprStmt e => by simp [stmtMissingAnnots]
  | .passStmt => by simp [stmtMissingAnnots]

theorem argsMissingAnnots_nonstrict (funcName : String) (lineno : Nat) :
    ∀ args : ArgList, argsMissingAnnots false funcName lineno args = []
  | .nil => by simp [argsMissingAnnots]
  | .cons (.mk a ann) rest => by
      have h := argsMissingAnnots_nonstrict funcName lineno rest
      cases ann <;> simp [argsMissingAnnots, h]

theorem stmtsMissingAnnots_nonstrict : ∀ l : StmtList, stmtsMissingAnnots false l = []
  | .nil => by simp [stmtsMissingAnnots]
  | .cons s rest => by
      have h1 := stmtMissingAnnots_nonstrict s
      have h2 := stmtsMissingAnnots_nonstrict rest
      simp [stmtsMissingAnnots, h1, h2]

end

theorem getTypeNameAE_eq_getTypeNameE (e : Expr) : getTypeNameAE e = getTypeNameE e := by
  induction e using getTypeNameAE.induct <;> simp_all [getTypeNameAE, getTypeNameE]

theorem binopTypeRule_claim (op : Operator) (lt rt : Option String) :
    binopTypeRule op lt rt =
      if op = .add ∧ lt = Option.some "str" ∧ rt = Option.some "str" then
        Option.some "str"
      else if (op = .add ∨ op = .sub ∨ op = .mult ∨ op = .div) ∧
              (lt = Option.some "int" ∨ lt = Option.some "float") ∧
              (rt = Option.some "int" ∨ rt = Option.some "float") then
        (if lt = Option.some "float" ∨ rt = Option.some "float" then
          Option.some "float" else Option.some "int")
      else lt := by
  unfold binopTypeRule
  split_ifs <;> simp_all

/-! ## The claims -/

/-- C1: for every source file that fails to parse — in either failure mode of
the parse adapter — `check_file` returns exactly 1, the single report is the
parse adapter's one stderr line, and the error and warning lists stay empty,
so no issue of any kind is contributed and extraction, inference, checking
and reporting are all skipped: the result is exactly the bare failure
record. -/
theorem c1_parse_failure_short_circuits (cfg : Config) (file msg : String) :
    checkFile cfg file (.syntaxError msg) =
      { retVal := 1, errors := [], warnings := [], infoMessages := [],
        stderrMessages := ["Syntax error in " ++ file ++ ": " ++ msg] } ∧
    checkFile cfg file (.readError msg) =
      { retVal := 1, errors := [], warnings := [], infoMessages := [],
        stderrMessages := ["Error parsing " ++ file ++ ": " ++ msg] } ∧
    (checkFile cfg file (.syntaxError msg)).stderrMessages.length = 1 ∧
    (checkFile cfg file (.readError msg)).stderrMessages.length = 1 :=
  ⟨rfl, rfl, rfl, rfl⟩

/-- C2: the method-heuristic lookup returns `List` for `append`, `Dict` for
`update`, `str` for `strip` and `None` for an unrecognized name; and for each
of the duplicated keys `pop`, `remove` and `clear` it returns the value of
the entry that table-construction order leaves last (all three resolve to
`Set`, the later of their two occurrences). -/
theorem c2_method_table_lookup :
    inferTypeFromMethod "append" = Option.some "List" ∧
    inferTypeFromMethod "update" = Option.some "Dict" ∧
    inferTypeFromMethod "strip" = Option.some "str" ∧
    inferTypeFromMethod "unknown_xyz" = Option.none ∧
    inferTypeFromMethod "pop" =
      (methodTypeEntries.reverse.find? (fun p => p.1 == "pop")).map Prod.snd ∧
    inferTypeFromMethod "remove" =
      (methodTypeEntries.reverse.find? (fun p => p.1 == "remove")).map Prod.snd ∧
    inferTypeFromMethod "clear" =
      (methodTypeEntries.reverse.find? (fun p => p.1 == "clear")).map Prod.snd ∧
    inferTypeFromMethod "pop" = Option.some "Set" ∧
    inferTypeFromMethod "remove" = Option.some "Set" ∧
    inferTypeFromMethod "clear" = Option.some "Set" := by
  decide

/-- The module `x = <literal>` for one literal expression. -/
def litModule (lit : Expr) : StmtList :=
  .cons (.assign (.cons (.name "x") .nil) lit) .nil

/-- The list literal `[1]`. -/
def listOne : Expr := .listLit (.cons (.const (.pint 1)) .nil)

/-- C3: evaluation at the claim's literals.  The inference engine's variable
pass (via `_get_constant_type`) maps all six literals exactly as the claim
states — `42 ↦ int`, `"s" ↦ str`, `3.14 ↦ float`, `True ↦ bool`,
`None ↦ None`, `[1] ↦ List`.  The extractor's `_infer_value_type` agrees on
five of them but maps `True` to `int`, not `bool`: its `isinstance` chain
tests `int` before `bool` and Python's `True` is an `int`, so its `bool`
branch is unreachable — the failing input for the claim (and for the spec's
§8 table, which the inference side and its unit tests support as the
intent). -/
theorem c3_literal_assignment_types :
    (dictGet (inferTypes (litModule (.const (.pint 42)))).variableTypes "x" =
      Option.some "int" ∧
     dictGet (inferTypes (litModule (.const (.pstr "s")))).variableTypes "x" =
      Option.some "str" ∧
     dictGet (inferTypes (litModule (.const (.pfloat "3.14")))).variableTypes "x" =
      Option.some "float" ∧
     dictGet (inferTypes (litModule (.const (.pbool true)))).variableTypes "x" =
      Option.some "bool" ∧
     dictGet (inferTypes (litModule (.const .pnone))).variableTypes "x" =
      Option.some "None" ∧
     dictGet (inferTypes (litModule listOne)).variableTypes "x" =
      Option.some "List") ∧
    (getConstantType (.pint 42) = "int" ∧
     getConstantType (.pstr "s") = "str" ∧
     getConstantType (.pfloat "3.14") = "float" ∧
     getConstantType (.pbool true) = "bool" ∧
     getConstantType .pnone = "None") ∧
    (inferValueType (.const (.pint 42)) = Option.some "int" ∧
     inferValueType (.const (.pstr "s")) = Option.some "str" ∧
     inferValueType (.const (.pfloat "3.14")) = Option.some "float" ∧
     inferValueType (.const .pnone) = Option.some "None" ∧
     inferValueType listOne = Option.some "List") ∧
    inferValueType (.const (.pbool true)) = Option.some "int" := by
  decide

/-- The module `def f() -> int: return "s"`. -/
def c4Module : StmtList :=
  .cons (.functionDef "f" .nil (.cons (.ret (.some (.const (.pstr "s")))) .nil)
    (.some (.name "int")) 1) .nil

/-- C4, counterexample: on `def f() -> int: return "s"` the seed pass records
the annotated return type `int` for `f`, but after `infer_types` completes
the entry records `str` — the signature pass replaced the seeded entry, so
the annotated return type is not preserved. -/
theorem c4_counterexample :
    dictGet (collectBasicTypes c4Module emptyInferState).functionSignatures "f" =
      Option.some (Signature.mk Option.none (Option.some "int")) ∧
    dictGet (inferTypes c4Module).functionSignatures "f" =
      Option.some (Signature.mk Option.none (Option.some "str")) ∧
    Signature.mk Option.none (Option.some "str") ≠
      Signature.mk Option.none (Option.some "int") := by
  decide

/-- C4, amended: the seed pass records the annotated return type, but the
signature pass stores its own freshly built signature dict — replacing the
whole seeded entry — whenever it infers any information (arguments or return
type) for that function; the seeded entry survives only when the signature
pass infers nothing for it. -/
theorem c4_signature_pass_replaces_seed (st : InferState) (name : String)
    (args : ArgList) (body : StmtList) (returns : OptExpr) (lineno : Nat) :
    (∀ sig, inferFunctionSignature st (.functionDef name args body returns lineno) =
        Option.some sig →
      dictGet (sigStep st
          (.stmt (.functionDef name args body returns lineno))).functionSignatures
        name = Option.some sig) ∧
    (inferFunctionSignature st (.functionDef name args body returns lineno) =
        Option.none →
      sigStep st (.stmt (.functionDef name args body returns lineno)) = st) := by
  constructor
  · intro sig h
    simp [sigStep, h, dictGet_dictInsert_self]
  · intro h
    simp [sigStep, h]

/-- The inference state after the seed pass has recorded `f`'s annotated
return type `int`. -/
def c4SeedState : InferState :=
  { typeMap := [],
    functionSignatures := [("f", Signature.mk Option.none (Option.some "int"))],
    variableTypes := [] }

/-- C4, witness for the amended theorem: over a state in which the seed pass
recorded `f : int`, the signature-pass step on `def f() -> int: return "s"`
overwrites the entry with the inferred `str` signature, and on an
information-free `def g(): pass` it leaves the state untouched. -/
theorem c4_witness :
    dictGet (sigStep c4SeedState
        (.stmt (.functionDef "f" .nil
          (.cons (.ret (.some (.const (.pstr "s")))) .nil)
          (.some (.name "int")) 1))).functionSignatures "f" =
      Option.some (Signature.mk Option.none (Option.some "str")) ∧
    sigStep c4SeedState
        (.stmt (.functionDef "g" .nil (.cons .passStmt .nil) .none 2)) =
      c4SeedState := by
  constructor
  · exact (c4_signature_pass_replaces_seed c4SeedState "f" .nil
      (.cons (.ret (.some (.const (.pstr "s")))) .nil) (.some (.name "int")) 1).1
      (Signature.mk Option.none (Option.some "str")) (by decide)
  · exact (c4_signature_pass_replaces_seed c4SeedState "g" .nil
      (.cons .passStmt .nil) .none 2).2 (by decide)

/-- The module `x: int` followed by `x = y` with `y` unknown. -/
def c5Module : StmtList :=
  .cons (.annAssign (.name "x") (.name "int") .none)
    (.cons (.assign (.cons (.name "x") .nil) (.name "y")) .nil)

/-- C5, counterexample: on `x: int` then `x = y` the assigned expression's
type is not inferable, and after `infer_types` the entry for `x` is still the
seeded `int` — the variable pass did not store the expression-rule result,
contradicting the claimed unconditional overwrite. -/
theorem c5_counterexample :
    dictGet (inferTypes c5Module).variableTypes "x" = Option.some "int" ∧
    inferExpressionType (inferTypes c5Module) (.name "y") = Option.none := by
  decide

/-- C5, amended: the variable pass overwrites the seed-pass value only when
the expression-type rule yields a (truthy) type for the assigned expression;
when the expression's type is not inferable it writes nothing and the seeded
value persists. -/
theorem c5_variable_pass_overwrites_only_inferable (st : InferState)
    (x : String) (value : Expr) :
    (∀ t, inferExpressionType st value = Option.some t → t ≠ "" →
      dictGet (varStep st
          (.stmt (.assign (.cons (.name x) .nil) value))).variableTypes x =
        Option.some t) ∧
    (inferExpressionType st value = Option.none →
      varStep st (.stmt (.assign (.cons (.name x) .nil) value)) = st) := by
  constructor
  · intro t h ht
    simp [varStep, ExprList.toList, assignTargetStep, h, ifTruthy, ht,
      dictGet_dictInsert_self]
  · intro h
    simp [varStep, ExprList.toList, assignTargetStep, h, ifTruthy]

/-- The inference state after the seed pass has recorded `x : int`. -/
def c5SeedState : InferState := ⟨[], [], [("x", "int")]⟩

/-- C5, witness for the amended theorem: over a state in which the seed pass
recorded `x : int`, the variable-pass step on `x = "s"` overwrites the entry
with `str`, and on `x = y` (not inferable) it leaves the state untouched. -/
theorem c5_witness :
    dictGet (varStep c5SeedState
        (.stmt (.assign (.cons (.name "x") .nil)
          (.const (.pstr "s"))))).variableTypes "x" = Option.some "str" ∧
    varStep c5SeedState (.stmt (.assign (.cons (.name "x") .nil) (.name "y"))) =
      c5SeedState := by
  constructor
  · exact (c5_variable_pass_overwrites_only_inferable c5SeedState "x"
      (.const (.pstr "s"))).1 "str" (by decide) (by decide)
  · exact (c5_variable_pass_overwrites_only_inferable c5SeedState "x"
      (.name "y")).2 (by decide)

/-- C6: for every binary operation the expression-type rule yields `str` when
both operands are `str` under `+`; `float`/`int` by the float-dominance rule
when both operand types are numeric under one of the four arithmetic
operators the heuristic covers; and in every other combination — including
every other operator — the left operand's inferred type.  (When both operands
are `str` under `-`, `*` or `/` the code's string branch also fires, but its
result is the left operand's type `str`, so the catch-all already describes
it.) -/
theorem c6_binop_rule (st : InferState) (l : Expr) (op : Operator) (r : Expr) :
    inferBinopType st l op r =
      if op = Operator.add ∧ inferExpressionType st l = Option.some "str" ∧
          inferExpressionType st r = Option.some "str" then
        Option.some "str"
      else if (op = Operator.add ∨ op = Operator.sub ∨ op = Operator.mult ∨
              op = Operator.div) ∧
          (inferExpressionType st l = Option.some "int" ∨
            inferExpressionType st l = Option.some "float") ∧
          (inferExpressionType st r = Option.some "int" ∨
            inferExpressionType st r = Option.some "float") then
        (if inferExpressionType st l = Option.some "float" ∨
            inferExpressionType st r = Option.some "float" then
          Option.some "float"
        else Option.some "int")
      else inferExpressionType st l := by
  have h := binopTypeRule_claim op (inferExpressionType st l)
    (inferExpressionType st r)
  simpa [inferBinopType] using h

/-- C7: for every function, under any inference state: if the collected
inferable return types all agree the result is that type; if two of them
differ the result is `Union[...]` over a duplicate-free member list whose
member set is exactly the collected set (its order is left unspecified); and
if nothing inferable was collected there is no return type and any signature
the pass still produces carries no `'returns'` entry. -/
theorem c7_return_type_inference (st : InferState) (f : Stmt) :
    (∀ t ts, collectReturnTypes st f = t :: ts → (∀ u ∈ t :: ts, u = t) →
      inferReturnType st f = Option.some t) ∧
    (∀ a b, a ∈ collectReturnTypes st f → b ∈ collectReturnTypes st f →
      a ≠ b →
      ∃ members : List String, members.Nodup ∧
        (∀ u, u ∈ members ↔ u ∈ collectReturnTypes st f) ∧
        inferReturnType st f =
          Option.some ("Union[" ++ String.intercalate ", " members ++ "]")) ∧
    (collectReturnTypes st f = [] →
      inferReturnType st f = Option.none ∧
      ∀ sig, inferFunctionSignature st f = Option.some sig →
        sig.returns = Option.none) := by
  refine ⟨?_, ?_, ?_⟩
  · intro t ts hcol hall
    have hset : pySet (t :: ts) = [t] := pySet_all_eq (by simp) hall
    unfold inferReturnType
    rw [hcol]
    simp [hset]
  · intro a b ha hb hne
    cases hcol : collectReturnTypes st f with
    | nil => rw [hcol] at ha; simp at ha
    | cons t rest =>
        refine ⟨pySet (t :: rest), List.nodup_dedup _, ?_, ?_⟩
        · intro u
          simp [pySet, List.mem_dedup]
        · have hlen : (pySet (t :: rest)).length ≠ 1 := by
            rw [hcol] at ha hb
            exact pySet_length_ne_one ha hb hne
          unfold inferReturnType
          rw [hcol]
          simp [hlen]
  · intro hcol
    have hnone : inferReturnType st f = Option.none := by
      unfold inferReturnType
      rw [hcol]
    refine ⟨hnone, ?_⟩
    intro sig hsig
    unfold inferFunctionSignature at hsig
    rw [hnone] at hsig
    cases harg : inferArgumentTypes f with
    | none => rw [harg] at hsig; simp [ifTruthy] at hsig
    | some d =>
        rw [harg] at hsig
        simp [ifTruthy] at hsig
        rw [← hsig]

/-- A function with two `int`-typed returns. -/
def c7FuncSame : Stmt :=
  .functionDef "g1" .nil
    (.cons (.ret (.some (.const (.pint 1))))
      (.cons (.ret (.some (.const (.pint 2)))) .nil)) .none 1

/-- A function with a `str`-typed and an `int`-typed return. -/
def c7FuncDiff : Stmt :=
  .functionDef "g2" .nil
    (.cons (.ret (.some (.const (.pstr "s"))))
      (.cons (.ret (.some (.const (.pint 1)))) .nil)) .none 1

/-- A function whose only return carries an uninferable expression. -/
def c7FuncNoRet : Stmt :=
  .functionDef "g3" .nil (.cons (.ret (.some (.name "unknown"))) .nil) .none 1

/-- C7, witness: two agreeing `int` returns infer `int`; a `str`/`int` pair
infers a `Union[...]` whose member set is exactly the two collected types; a
function with no inferable return expression yields no return type. -/
theorem c7_witness :
    inferReturnType emptyInferState c7FuncSame = Option.some "int" ∧
    (∃ members : List String, members.Nodup ∧
      (∀ u, u ∈ members ↔ u ∈ collectReturnTypes emptyInferState c7FuncDiff) ∧
      inferReturnType emptyInferState c7FuncDiff =
        Option.some ("Union[" ++ String.intercalate ", " members ++ "]")) ∧
    inferReturnType emptyInferState c7FuncNoRet = Option.none := by
  refine ⟨?_, ?_, ?_⟩
  · exact (c7_return_type_inference emptyInferState c7FuncSame).1 "int" ["int"]
      (by decide) (by decide)
  · exact (c7_return_type_inference emptyInferState c7FuncDiff).2.1 "str" "int"
      (by decide) (by decide) (by decide)
  · exact ((c7_return_type_inference emptyInferState c7FuncNoRet).2.2
      (by decide)).1

/-- C8: `_check_function_call` emits an issue — always of kind
`argument_count_mismatch` — if and only if inference is enabled, the callee
is a bare name whose inferred signature exists and records an argument list,
and the call's positional-argument count differs from that list's length; in
particular a call to a function whose signature records no argument list
raises nothing. -/
theorem c8_call_site_mismatch_iff (cfg : Config)
    (sigs : List (String × Signature)) (file : String) (funcExpr : Expr)
    (callArgs : ExprList) (lineno : Nat) :
    (checkFunctionCall cfg sigs file funcExpr callArgs lineno ≠ [] ↔
      (cfg.infer = true ∧ ∃ funcName sig expectedArgs,
        funcExpr = Expr.name funcName ∧
        dictGet sigs funcName = Option.some sig ∧
        sig.args = Option.some expectedArgs ∧
        callArgs.length ≠ expectedArgs.length)) ∧
    (∀ i ∈ checkFunctionCall cfg sigs file funcExpr callArgs lineno,
      i.itype = "argument_count_mismatch") := by
  refine ⟨?_, checkFunctionCall_itype cfg sigs file funcExpr callArgs lineno⟩
  cases funcExpr
  case name fn =>
    by_cases hinf : cfg.infer = true
    · cases hd : dictGet sigs fn with
      | none => simp [checkFunctionCall, hinf, hd]
      | some sig =>
          cases hargs : sig.args with
          | none => simp [checkFunctionCall, hinf, hd, hargs]
          | some expected =>
              by_cases hlen : callArgs.length = expected.length
              · simp [checkFunctionCall, hinf, hd, hargs, hlen]
              · simp [checkFunctionCall, hinf, hd, hargs, hlen]
    · simp [checkFunctionCall, hinf]
  all_goals simp [checkFunctionCall]

/-- C9: the extractor's type-name reconstruction and the inference engine's
type-name reconstruction produce identical output on every syntax node, and
that shared rule maps a bare identifier to itself, an attribute access to
`<base>.<attr>` recursively, a subscript to `<base>[<slice>]` recursively,
and a literal constant to its stringified value (everything else falls back
to the generic textual rendering of the node). -/
theorem c9_type_name_equivalence :
    (∀ oe : OptExpr, getTypeNameA oe = getTypeName oe) ∧
    (∀ id : String, getTypeNameA (.some (.name id)) = Option.some id) ∧
    (∀ v : Expr, ∀ a : String, getTypeNameA (.some (.attrAccess v a)) =
      Option.some (pyFStr (getTypeNameA (.some v)) ++ "." ++ a)) ∧
    (∀ v s : Expr, getTypeNameA (.some (.subscript v s)) =
      Option.some (pyFStr (getTypeNameA (.some v)) ++ "[" ++
        pyFStr (getTypeNameA (.some s)) ++ "]")) ∧
    (∀ c : PyConst, getTypeNameA (.some (.const c)) = Option.some c.pyStr) := by
  refine ⟨?_, ?_, ?_, ?_, ?_⟩
  · intro oe
    cases oe with
    | none => rfl
    | some e =>
        simp only [getTypeNameA, getTypeName]
        exact getTypeNameAE_eq_getTypeNameE e
  · intro id; rfl
  · intro v a; rfl
  · intro v s; rfl
  · intro c; rfl

theorem sigErrors_nonstrict {cfg : Config} (file : String) (sigs : List FuncSig)
    (h : cfg.strict = false) : sigErrors cfg file sigs = [] := by
  unfold sigErrors
  rw [h]
  induction sigs with
  | nil => rfl
  | cons s rest ih =>
      rw [List.filterMap_cons]
      simp only [Bool.false_and, if_neg Bool.false_ne_true]
      exact ih

theorem filterMap_of_none {α β : Type} (f : α → Option β)
    (hf : ∀ a, f a = Option.none) (l : List α) : l.filterMap f = [] := by
  induction l with
  | nil => rfl
  | cons a rest ih => simp [List.filterMap_cons, hf, ih]

theorem sigWarnings_nonstrict {cfg : Config} (file : String) (sigs : List FuncSig)
    (h : cfg.strict = false) : sigWarnings cfg file sigs = [] := by
  unfold sigWarnings
  rw [h]
  induction sigs with
  | nil => rfl
  | cons s rest ih =>
      simp only [List.map_cons, List.flatten_cons]
      rw [filterMap_of_none _ (fun a => by simp), ih]
      rfl

/-- C10: when strict mode is off, `check_file` on any successfully parsed
tree emits no `missing_annotation` issue of either severity: the extractor
appends missing-annotation sites only under strict mode, so the
orchestrator's non-strict warning branch for that kind has nothing to
replay, and every other check emits only other kinds. -/
theorem c10_nonstrict_no_missing_annotation (cfg : Config) (file : String)
    (tree : StmtList) (h : cfg.strict = false) :
    ((checkFile cfg file (.parsed tree)).errors ++
      (checkFile cfg file (.parsed tree)).warnings).filter
        (fun i => i.itype == "missing_annotation") = [] := by
  have hmiss : stmtsMissingAnnots cfg.strict tree = [] := by
    rw [h]
    exact stmtsMissingAnnots_nonstrict tree
  have htm : ∀ i ∈ typeMismatchErrors cfg (inferTypes tree).functionSignatures
      file tree, ¬(i.itype == "missing_annotation") = true := by
    intro i hi
    have := typeMismatchErrors_itype cfg (inferTypes tree).functionSignatures
      file tree i hi
    simp [this]
  simp only [checkFile]
  rw [sigErrors_nonstrict file _ h, sigWarnings_nonstrict file _ h, hmiss]
  simp only [missingAnnotErrors, missingAnnotWarnings, h]
  simp only [List.map_nil, if_neg Bool.false_ne_true, List.nil_append,
    List.append_nil, List.filter_append]
  exact List.filter_eq_nil_iff.mpr htm

/-- A module with inference-relevant content: `def h(items): items.append()`
then a zero-argument call `h()`, which trips the call-site check. -/
def c10Tree : StmtList :=
  .cons (.functionDef "h" (.cons (.mk "items" .none) .nil)
    (.cons (.exprStmt (.call (.attrAccess (.name "items") "append") .nil 2)) .nil)
    .none 1)
    (.cons (.exprStmt (.call (.name "h") .nil 3)) .nil)

set_option maxRecDepth 8192 in
/-- C10, witness: on a non-strict, inference-enabled run that does produce an
error (an `argument_count_mismatch`), no `missing_annotation` issue appears. -/
theorem c10_witness :
    (checkFile ⟨false, true, false⟩ "a.py" (.parsed c10Tree)).errors.length = 1 ∧
    ((checkFile ⟨false, true, false⟩ "a.py" (.parsed c10Tree)).errors ++
      (checkFile ⟨false, true, false⟩ "a.py" (.parsed c10Tree)).warnings).filter
        (fun i => i.itype == "missing_annotation") = [] := by
  constructor
  · decide
  · exact c10_nonstrict_no_missing_annotation ⟨false, true, false⟩ "a.py"
      c10Tree rfl

end PyType
